import Mathlib

/-!
Verification of the vSphere Terraform provider's helper logic against its
natural-language specification.  Go functions from the repository are
shallowly embedded as Lean functions: polling loops become recursive
functions over the list of poll results they observe (one list entry per
ticker tick), fallible Go functions returning `(T, error)` become
`Except String T` (or `T × Option String` when the Go code returns both a
value and an error), and the remote API client is abstracted as the
already-delivered results of its calls.
-/

namespace VSphere

/-! ## Supervisor enable/disable polling loops
    (vsphere/internal/helper/supervisor/supervisor_helper.go)

    `namespace.ConfigStatus` in govmomi is a string-valued enum; we keep it
    as `String`, with the constants used by the provider. -/

abbrev ConfigStatus := String

def RunningConfigStatus : ConfigStatus := "RUNNING"

def ErrorConfigStatus : ConfigStatus := "ERROR"

def ConfiguringConfigStatus : ConfigStatus := "CONFIGURING"

/-- One poll of `GetSupervisorSummary`: `none` means the call returned an
error, `some s` means it returned a summary whose `ConfigStatus` is `s`. -/
abbrev SupervisorPoll := Option ConfigStatus

/-- Result of the `WaitForSupervisorEnable` loop on a finite observation of
polls.  `pending fc` means the loop has consumed every listed poll without
returning, with the failure counter currently at `fc`. -/
inductive EnableOutcome where
  | fetchFailure
  | success
  | enableFailure
  | pending (failureCount : Nat)
deriving DecidableEq

/-- The ticker interval of `WaitForSupervisorEnable` and
`WaitForSupervisorDisable`: `time.Minute * 1`, in seconds. -/
def supervisorPollIntervalSeconds : Nat := 60

/-- Body of `WaitForSupervisorEnable`, processing the poll results in order
with the running failure counter (`failureCount` starts at 0 in the Go
code).  On a `GetSupervisorSummary` error the Go code returns a
"could not find supervisor" diagnostic; on `RUNNING` it returns nil; on
`ERROR` it gives up with "could not enable supervisor" once
`failureCount > 4` and otherwise increments the counter; on `CONFIGURING`
it resets the counter; on any other status it just keeps polling.  The
`ctx.Done()` select case has an empty body and does not exit the loop. -/
def WaitForSupervisorEnable (failureCount : Nat) : List SupervisorPoll → EnableOutcome
  | [] => .pending failureCount
  | none :: _ => .fetchFailure
  | some s :: rest =>
    if s = RunningConfigStatus then .success
    else if s = ErrorConfigStatus then
      if failureCount > 4 then .enableFailure
      else WaitForSupervisorEnable (failureCount + 1) rest
    else if s = ConfiguringConfigStatus then WaitForSupervisorEnable 0 rest
    else WaitForSupervisorEnable failureCount rest

/-- The claim's own counting notion, written from its words: an `ERROR`
poll increments a failure counter, a `CONFIGURING` poll resets it to zero,
any other status leaves it unchanged, and counting stops at the loop's
other exits (a fetch error or a `RUNNING` status).  The value is the
largest counter value attained at any `ERROR` poll. -/
def maxErrCounter (failureCount : Nat) : List SupervisorPoll → Nat
  | [] => 0
  | none :: _ => 0
  | some s :: rest =>
    if s = RunningConfigStatus then 0
    else if s = ErrorConfigStatus then
      max (failureCount + 1) (maxErrCounter (failureCount + 1) rest)
    else if s = ConfiguringConfigStatus then maxErrCounter 0 rest
    else maxErrCounter failureCount rest

/-- Result of the `WaitForSupervisorDisable` loop. -/
inductive DisableOutcome where
  | success
  | disableFailure
  | pending
deriving DecidableEq

/-- Body of `WaitForSupervisorDisable`: a `GetSupervisorSummary` error is
taken to mean the supervisor is gone and the loop returns nil; a summary
with `ERROR` status returns the "could not disable supervisor" diagnostic;
any other summary keeps polling. -/
def WaitForSupervisorDisable : List SupervisorPoll → DisableOutcome
  | [] => .pending
  | none :: _ => .success
  | some s :: rest =>
    if s = ErrorConfigStatus then .disableFailure
    else WaitForSupervisorDisable rest

/-! ## Read helpers (config profile and zone data source)
    (vsphere/internal/helper/configprofile/config_profile_helper.go and
    vsphere/internal/helper/zone/vsphere_zone_helper.go)

    The remote client calls are abstracted as their delivered results. -/

/-- Attributes written by `ReadConfigProfile`: the resource id it sets and
the `configuration` and `schema` attributes. -/
structure ConfigProfileReadState where
  id : String
  configuration : String
  schemaAttr : String
deriving DecidableEq

/-- `ReadConfigProfile`: sets the id to `config_profile_<cluster>`, then
fetches the configuration and the configuration schema, wrapping each
failure with the operation's message. -/
def ReadConfigProfile (clusterID : String)
    (getConfiguration : Except String String) (getSchema : Except String String) :
    Except String ConfigProfileReadState :=
  match getConfiguration with
  | .error e => .error ("failed to retrieve cluster configuration: " ++ e)
  | .ok config =>
    match getSchema with
    | .error e => .error ("failed to retrieve configuration schema: " ++ e)
    | .ok s => .ok ⟨"config_profile_" ++ clusterID, config, s⟩

/-- The zone summary returned by `zones.Manager.GetZone`. -/
structure ZoneSummary where
  description : String
deriving DecidableEq

/-- Attributes written by `DataSourceVSphereZoneRead`. -/
structure ZoneReadState where
  id : String
  description : String
  cluster_ids : List String
deriving DecidableEq

/-- `DataSourceVSphereZoneRead`: sets the id to the zone name, then fetches
the zone and its cluster associations, propagating each failure unchanged
(`diag.FromErr(err)`). -/
def DataSourceVSphereZoneRead (zoneName : String)
    (getZone : Except String ZoneSummary)
    (getAssociations : Except String (List String)) :
    Except String ZoneReadState :=
  match getZone with
  | .error e => .error e
  | .ok z =>
    match getAssociations with
    | .error e => .error e
    | .ok ids => .ok ⟨zoneName, z.description, ids⟩

/-! ## Lemmas about the supervisor polling loops -/

lemma errorStatus_ne_running : ErrorConfigStatus ≠ RunningConfigStatus := by decide

lemma configuringStatus_ne_running : ConfiguringConfigStatus ≠ RunningConfigStatus := by decide

lemma configuringStatus_ne_error : ConfiguringConfigStatus ≠ ErrorConfigStatus := by decide

lemma waitEnable_failure_iff_aux (polls : List SupervisorPoll) :
    ∀ failureCount, WaitForSupervisorEnable failureCount polls = .enableFailure ↔
      6 ≤ maxErrCounter failureCount polls := by
  induction polls with
  | nil => intro fc; simp [WaitForSupervisorEnable, maxErrCounter]
  | cons p rest ih =>
    intro fc
    cases p with
    | none => simp [WaitForSupervisorEnable, maxErrCounter]
    | some s =>
      by_cases hr : s = RunningConfigStatus
      · subst hr; simp [WaitForSupervisorEnable, maxErrCounter]
      · by_cases he : s = ErrorConfigStatus
        · subst he
          by_cases hf : fc > 4
          · simp [WaitForSupervisorEnable, maxErrCounter, errorStatus_ne_running, hf]
            omega
          · simp [WaitForSupervisorEnable, maxErrCounter, errorStatus_ne_running, hf, ih]
            omega
        · by_cases hc : s = ConfiguringConfigStatus
          · subst hc
            simp [WaitForSupervisorEnable, maxErrCounter, configuringStatus_ne_running,
              configuringStatus_ne_error, ih]
          · simp [WaitForSupervisorEnable, maxErrCounter, hr, he, hc, ih]

lemma waitEnable_success_of_pending (pre : List SupervisorPoll) :
    ∀ failureCount c, WaitForSupervisorEnable failureCount pre = .pending c →
      ∀ suf, WaitForSupervisorEnable failureCount
        (pre ++ some RunningConfigStatus :: suf) = .success := by
  induction pre with
  | nil => intro fc c _ suf; simp [WaitForSupervisorEnable, RunningConfigStatus]
  | cons p rest ih =>
    intro fc c h suf
    cases p with
    | none => simp [WaitForSupervisorEnable] at h
    | some s =>
      by_cases hr : s = RunningConfigStatus
      · subst hr; simp [WaitForSupervisorEnable] at h
      · by_cases he : s = ErrorConfigStatus
        · subst he
          by_cases hf : fc > 4
          · simp [WaitForSupervisorEnable, errorStatus_ne_running, hf] at h
          · simp [WaitForSupervisorEnable, errorStatus_ne_running, hf] at h ⊢
            exact ih _ _ h suf
        · by_cases hc : s = ConfiguringConfigStatus
          · subst hc
            simp [WaitForSupervisorEnable, configuringStatus_ne_running,
              configuringStatus_ne_error] at h ⊢
            exact ih _ _ h suf
          · simp [WaitForSupervisorEnable, hr, he, hc] at h ⊢
            exact ih _ _ h suf

lemma waitEnable_success_exists (polls : List SupervisorPoll) :
    ∀ failureCount, WaitForSupervisorEnable failureCount polls = .success →
      ∃ pre c suf, polls = pre ++ some RunningConfigStatus :: suf ∧
        WaitForSupervisorEnable failureCount pre = .pending c := by
  induction polls with
  | nil => intro fc h; simp [WaitForSupervisorEnable] at h
  | cons p rest ih =>
    intro fc h
    cases p with
    | none => simp [WaitForSupervisorEnable] at h
    | some s =>
      by_cases hr : s = RunningConfigStatus
      · exact ⟨[], fc, rest, by simp [hr], by simp [WaitForSupervisorEnable]⟩
      · by_cases he : s = ErrorConfigStatus
        · subst he
          by_cases hf : fc > 4
          · simp [WaitForSupervisorEnable, errorStatus_ne_running, hf] at h
          · simp [WaitForSupervisorEnable, errorStatus_ne_running, hf] at h
            obtain ⟨pre, c, suf, hpre, hpend⟩ := ih _ h
            exact ⟨some ErrorConfigStatus :: pre, c, suf, by simp [hpre],
              by simp [WaitForSupervisorEnable, errorStatus_ne_running, hf, hpend]⟩
        · by_cases hc : s = ConfiguringConfigStatus
          · subst hc
            simp [WaitForSupervisorEnable, configuringStatus_ne_running,
              configuringStatus_ne_error] at h
            obtain ⟨pre, c, suf, hpre, hpend⟩ := ih _ h
            exact ⟨some ConfiguringConfigStatus :: pre, c, suf, by simp [hpre],
              by simp [WaitForSupervisorEnable, configuringStatus_ne_running,
                configuringStatus_ne_error, hpend]⟩
          · simp [WaitForSupervisorEnable, hr, he, hc] at h
            obtain ⟨pre, c, suf, hpre, hpend⟩ := ih _ h
            exact ⟨some s :: pre, c, suf, by simp [hpre],
              by simp [WaitForSupervisorEnable, hr, he, hc, hpend]⟩

lemma waitEnable_configuring_pending (n : Nat) :
    WaitForSupervisorEnable 0 (List.replicate n (some ConfiguringConfigStatus)) =
      .pending 0 := by
  induction n with
  | zero => simp [WaitForSupervisorEnable]
  | succ k ih =>
    rw [List.replicate_succ]
    simp only [WaitForSupervisorEnable]
    rw [if_neg configuringStatus_ne_running, if_neg configuringStatus_ne_error]
    simpa using ih

lemma disable_success_iff (polls : List SupervisorPoll) :
    WaitForSupervisorDisable polls = .success ↔
      ∃ pre suf, polls = pre ++ (none : SupervisorPoll) :: suf ∧
        ∀ p ∈ pre, ∃ s, p = some s ∧ s ≠ ErrorConfigStatus := by
  induction polls with
  | nil =>
    constructor
    · intro h; simp [WaitForSupervisorDisable] at h
    · rintro ⟨pre, suf, hp, -⟩
      exact absurd hp (by simp)
  | cons p rest ih =>
    cases p with
    | none =>
      constructor
      · intro _; exact ⟨[], rest, rfl, by simp⟩
      · intro _; simp [WaitForSupervisorDisable]
    | some s =>
      by_cases he : s = ErrorConfigStatus
      · subst he
        constructor
        · intro h; simp [WaitForSupervisorDisable] at h
        · rintro ⟨pre, suf, hp, hall⟩
          cases pre with
          | nil => simp at hp
          | cons q pre' =>
            rw [List.cons_append] at hp
            injection hp with h1 h2
            obtain ⟨t, hts, htne⟩ := hall q (by simp)
            rw [hts] at h1
            exact absurd (Option.some.inj h1).symm htne
      · have hstep : WaitForSupervisorDisable (some s :: rest) =
            WaitForSupervisorDisable rest := by
          simp [WaitForSupervisorDisable, he]
        rw [hstep, ih]
        constructor
        · rintro ⟨pre, suf, hp, hall⟩
          refine ⟨some s :: pre, suf, by simp [hp], ?_⟩
          intro p hp'
          rcases List.mem_cons.mp hp' with h | h
          · exact ⟨s, h, he⟩
          · exact hall p h
        · rintro ⟨pre, suf, hp, hall⟩
          cases pre with
          | nil => simp at hp
          | cons q pre' =>
            rw [List.cons_append] at hp
            injection hp with h1 h2
            exact ⟨pre', suf, h2, fun p hmem => hall p (by simp [hmem])⟩

lemma disable_failure_iff (polls : List SupervisorPoll) :
    WaitForSupervisorDisable polls = .disableFailure ↔
      ∃ pre suf, polls = pre ++ some ErrorConfigStatus :: suf ∧
        ∀ p ∈ pre, ∃ s, p = some s ∧ s ≠ ErrorConfigStatus := by
  induction polls with
  | nil =>
    constructor
    · intro h; simp [WaitForSupervisorDisable] at h
    · rintro ⟨pre, suf, hp, -⟩
      exact absurd hp (by simp)
  | cons p rest ih =>
    cases p with
    | none =>
      constructor
      · intro h; simp [WaitForSupervisorDisable] at h
      · rintro ⟨pre, suf, hp, hall⟩
        cases pre with
        | nil => simp at hp
        | cons q pre' =>
          rw [List.cons_append] at hp
          injection hp with h1 h2
          obtain ⟨t, hts, -⟩ := hall q (by simp)
          rw [hts] at h1
          exact absurd h1 (by simp)
    | some s =>
      by_cases he : s = ErrorConfigStatus
      · subst he
        constructor
        · intro _; exact ⟨[], rest, rfl, by simp⟩
        · intro _; simp [WaitForSupervisorDisable]
      · have hstep : WaitForSupervisorDisable (some s :: rest) =
            WaitForSupervisorDisable rest := by
          simp [WaitForSupervisorDisable, he]
        rw [hstep, ih]
        constructor
        · rintro ⟨pre, suf, hp, hall⟩
          refine ⟨some s :: pre, suf, by simp [hp], ?_⟩
          intro p hp'
          rcases List.mem_cons.mp hp' with h | h
          · exact ⟨s, h, he⟩
          · exact hall p h
        · rintro ⟨pre, suf, hp, hall⟩
          cases pre with
          | nil =>
            rw [List.nil_append] at hp
            injection hp with h1 h2
            exact absurd (Option.some.inj h1) he
          | cons q pre' =>
            rw [List.cons_append] at hp
            injection hp with h1 h2
            exact ⟨pre', suf, h2, fun p hmem => hall p (by simp [hmem])⟩

/-! ## Claims C1, C2, C4 and C9 -/

/-- Claim C1, counterexample: the spec says the enable loop tolerates up to
4 consecutive error-status polls and fails once the consecutive-error count
exceeds that window; on a sequence of 5 consecutive `ERROR` polls followed
by `RUNNING` the loop would then have to fail, but the code succeeds (it
only gives up when `failureCount > 4` is tested *before* the increment, so
it tolerates 5 consecutive error polls). -/
theorem supervisorEnable_tolerance_counterexample :
    WaitForSupervisorEnable 0
        (List.replicate 5 (some ErrorConfigStatus) ++ [some RunningConfigStatus]) =
      .success ∧
    WaitForSupervisorEnable 0 (List.replicate 5 (some ErrorConfigStatus)) ≠
      .enableFailure := by
  constructor
  · rfl
  · decide

/-- Claim C1 (amended): the enable loop tolerates up to 5 consecutive
error-status polls: an `ERROR` poll increments the failure counter, a
`CONFIGURING` poll resets it to zero, and the loop returns the
enable-failure error exactly when that counter exceeds 5, i.e. on the sixth
consecutive `ERROR` poll; it never fails earlier. -/
theorem supervisorEnable_failure_iff_counter_exceeds_five
    (failureCount : Nat) (polls : List SupervisorPoll) :
    WaitForSupervisorEnable failureCount polls = .enableFailure ↔
      6 ≤ maxErrCounter failureCount polls :=
  waitEnable_failure_iff_aux polls failureCount

/-- Claim C2, counterexample: the spec says the enable loop polls "for up
to 5 polls", but after 10 straight `CONFIGURING` polls the loop is still
pending — the number of polls is not bounded. -/
theorem supervisorEnable_pollcount_counterexample :
    WaitForSupervisorEnable 0 (List.replicate 10 (some ConfiguringConfigStatus)) =
      .pending 0 ∧
    (EnableOutcome.pending 0 ≠ .success ∧ EnableOutcome.pending 0 ≠ .enableFailure ∧
      EnableOutcome.pending 0 ≠ .fetchFailure) := by
  constructor
  · rfl
  · decide

/-- Claim C2 (amended): the enable loop polls at a fixed 60-second
interval with **no** upper bound on the number of polls (after any number
of `CONFIGURING` polls it is still pending), and it terminates with
success exactly when a poll reports the terminal `RUNNING` status while
the loop is still pending. -/
theorem supervisorEnable_polling_characterization :
    supervisorPollIntervalSeconds = 60 ∧
    (∀ n, WaitForSupervisorEnable 0
        (List.replicate n (some ConfiguringConfigStatus)) = .pending 0) ∧
    (∀ failureCount polls, WaitForSupervisorEnable failureCount polls = .success ↔
      ∃ pre c suf, polls = pre ++ some RunningConfigStatus :: suf ∧
        WaitForSupervisorEnable failureCount pre = .pending c) := by
  refine ⟨rfl, waitEnable_configuring_pending, fun failureCount polls => ⟨?_, ?_⟩⟩
  · exact waitEnable_success_exists polls failureCount
  · rintro ⟨pre, c, suf, hp, hpend⟩
    rw [hp]
    exact waitEnable_success_of_pending pre failureCount c hpend suf

/-- Claim C4, counterexample: the spec says no operation swallows a
remote-client error or converts it into a success result, and that errors
are wrapped with the resource identifier and the operation name.
`WaitForSupervisorDisable` however returns nil (success) when
`GetSupervisorSummary` fails, and `DataSourceVSphereZoneRead` propagates a
`GetZone` error verbatim, with neither the zone name nor an operation name
added. -/
theorem disable_swallows_fetch_error_counterexample :
    WaitForSupervisorDisable [(none : SupervisorPoll)] = .success ∧
    DataSourceVSphereZoneRead "zone-1" (.error "server unavailable") (.ok []) =
      .error "server unavailable" :=
  ⟨rfl, rfl⟩

/-- Claim C4 (amended): read operations propagate every remote-client
error outward without converting it into success — `ReadConfigProfile`
wraps it with the failing operation's name (but not the resource
identifier), while `DataSourceVSphereZoneRead` returns it unchanged — but
the wait operation `WaitForSupervisorDisable` deliberately converts a
summary-fetch error into successful completion. -/
theorem error_propagation_characterization :
    (∀ cid e gs, ReadConfigProfile cid (.error e) gs =
        .error ("failed to retrieve cluster configuration: " ++ e)) ∧
    (∀ cid c e, ReadConfigProfile cid (.ok c) (.error e) =
        .error ("failed to retrieve configuration schema: " ++ e)) ∧
    (∀ zn e ga, DataSourceVSphereZoneRead zn (.error e) ga = .error e) ∧
    (∀ zn z e, DataSourceVSphereZoneRead zn (.ok z) (.error e) = .error e) ∧
    (∀ polls, WaitForSupervisorDisable ((none : SupervisorPoll) :: polls) = .success) :=
  ⟨fun _ _ _ => rfl, fun _ _ _ => rfl, fun _ _ _ => rfl, fun _ _ _ => rfl,
    fun _ => rfl⟩

/-- Claim C9: `WaitForSupervisorDisable` treats a failed summary fetch as
successful completion — it returns nil exactly when a fetch-error poll is
reached (every earlier poll having returned a non-`ERROR` summary), and it
returns the disable-failure error exactly when a successfully fetched
summary reporting the `ERROR` config status is reached first. -/
theorem supervisorDisable_characterization (polls : List SupervisorPoll) :
    (WaitForSupervisorDisable polls = .success ↔
      ∃ pre suf, polls = pre ++ (none : SupervisorPoll) :: suf ∧
        ∀ p ∈ pre, ∃ s, p = some s ∧ s ≠ ErrorConfigStatus) ∧
    (WaitForSupervisorDisable polls = .disableFailure ↔
      ∃ pre suf, polls = pre ++ some ErrorConfigStatus :: suf ∧
        ∀ p ∈ pre, ∃ s, p = some s ∧ s ≠ ErrorConfigStatus) :=
  ⟨disable_success_iff polls, disable_failure_iff polls⟩

/-! ## Compute-cluster schema mutual exclusions and the control-plane
    network backing builder (resource_vsphere_compute_cluster.go and
    supervisor_helper.go) -/

/-- The `ConflictsWith` list of the `host_system_ids` schema attribute of
`vsphere_compute_cluster`. -/
def hostSystemIdsConflictsWith : List String := ["host_managed"]

/-- The `ConflictsWith` list of the `host_managed` schema attribute of
`vsphere_compute_cluster`. -/
def hostManagedConflictsWith : List String := ["host_system_ids"]

/-- The `backing` nested attribute of the supervisor control-plane
network: a `network` string and a `segments` string list. -/
structure BackingData where
  network : String
  segments : List String
deriving DecidableEq

/-- govmomi `namespace.NetworkSegment`. -/
structure NetworkSegment where
  networks : List String
deriving DecidableEq

/-- govmomi `namespace.Backing` (zero value: empty backing kind and nil
pointers). -/
structure Backing where
  backing : String
  network : Option String
  networkSegment : Option NetworkSegment
deriving DecidableEq

/-- `buildControlPlaneNetworkBacking`: fills the backing from whichever of
`network` / `segments` is present, counts how many were given, and returns
a non-nil error (alongside the partially filled result) when both are. -/
def buildControlPlaneNetworkBacking (backingData : BackingData) : Backing × Option String :=
  let r0 : Backing := ⟨"", none, none⟩
  let (r1, n1) :=
    if backingData.network ≠ "" then
      ({ r0 with network := some backingData.network, backing := "NETWORK" }, 1)
    else (r0, 0)
  let (r2, n2) :=
    if backingData.segments.length > 0 then
      ({ r1 with networkSegment := some ⟨backingData.segments⟩,
                 backing := "NETWORK_SEGMENT" }, n1 + 1)
    else (r1, n1)
  let err : Option String :=
    if n2 > 1 then
      some "control plane configuration cannot specify both `network` and `segments`"
    else none
  (r2, err)

/-! ## Zone resource creation (resource_vsphere_zone.go)

    The remote zone/association managers are abstracted by failure
    oracles: `createErr` is the result of `CreateZone`, `addErr clusterID`
    the result of `AddAssociations` for a given cluster, and `deleteErr`
    the result of the cleanup `DeleteZone` call when it is made.  The Go
    code invokes the cleanup as `_ = zm.DeleteZone(zoneName)`, discarding
    its error: a failed delete therefore leaves the zone behind.  The
    state the call leaves on the remote side is tracked explicitly,
    together with whether the cleanup call was made. -/

/-- Result of `resourceVSphereZoneCreate`: the returned diagnostics, and
the remote state it leaves behind. -/
structure ZoneCreateOutcome where
  result : Except String Unit
  zoneExists : Bool
  deleteCalled : Bool
  associations : List String

/-- The association loop of `resourceVSphereZoneCreate`: adds clusters
one by one; on the first failure it invokes `DeleteZone` on the freshly
created zone — whose error the Go code discards — and returns the
association error. -/
def zoneCreateAssociations (addErr : String → Option String) (deleteErr : Option String) :
    List String → List String → ZoneCreateOutcome
  | done, [] => ⟨.ok (), true, false, done⟩
  | done, clusterID :: rest =>
    match addErr clusterID with
    | some e =>
      match deleteErr with
      | none => ⟨.error e, false, true, []⟩
      | some _ => ⟨.error e, true, true, done⟩
    | none => zoneCreateAssociations addErr deleteErr (done ++ [clusterID]) rest

/-- `resourceVSphereZoneCreate`: creates the zone, then adds each
requested cluster association, invoking the cleanup delete if an
association fails. -/
def resourceVSphereZoneCreate (createErr : Option String)
    (addErr : String → Option String) (deleteErr : Option String)
    (clusterIDs : List String) : ZoneCreateOutcome :=
  match createErr with
  | some e => ⟨.error e, false, false, []⟩
  | none => zoneCreateAssociations addErr deleteErr [] clusterIDs

lemma zoneCreateAssociations_error_cleanup (addErr : String → Option String)
    (deleteErr : Option String) (ids : List String) :
    ∀ done e, (zoneCreateAssociations addErr deleteErr done ids).result = .error e →
      (zoneCreateAssociations addErr deleteErr done ids).deleteCalled = true ∧
      (deleteErr = none →
        (zoneCreateAssociations addErr deleteErr done ids).zoneExists = false) := by
  induction ids with
  | nil => intro done e h; simp [zoneCreateAssociations] at h
  | cons c rest ih =>
    intro done e h
    cases haddv : addErr c with
    | some e' =>
      cases hdel : deleteErr with
      | none => simp [zoneCreateAssociations, haddv, hdel]
      | some d => simp [zoneCreateAssociations, haddv, hdel]
    | none =>
      simp only [zoneCreateAssociations, haddv] at h ⊢
      exact ih _ e h

/-! ## Claims C3 and C5 -/

/-- Claim C3, counterexample: the spec says no expand/build routine
rejects an input by enforcing a mutual-exclusion invariant at runtime, yet
`buildControlPlaneNetworkBacking` returns an error for a configuration
that sets both `network` and `segments`. -/
theorem backing_runtime_mutual_exclusion_counterexample :
    (buildControlPlaneNetworkBacking ⟨"network-1", ["segment-1"]⟩).2 =
      some "control plane configuration cannot specify both `network` and `segments`" :=
  rfl

/-- Claim C3 (amended): the `host_managed` / `host_system_ids` mutual
exclusion is indeed only a schema-level `ConflictsWith` validation, but it
is not true that no build routine enforces an invariant at runtime:
`buildControlPlaneNetworkBacking` rejects every backing configuration that
sets both `network` and `segments` with a non-nil error. -/
theorem schema_conflicts_and_backing_runtime_check :
    (hostSystemIdsConflictsWith = ["host_managed"] ∧
      hostManagedConflictsWith = ["host_system_ids"]) ∧
    (∀ b : BackingData, b.network ≠ "" → b.segments ≠ [] →
      (buildControlPlaneNetworkBacking b).2 =
        some "control plane configuration cannot specify both `network` and `segments`") := by
  refine ⟨⟨rfl, rfl⟩, fun b hn hs => ?_⟩
  have hlen : b.segments.length > 0 := List.length_pos.mpr hs
  simp [buildControlPlaneNetworkBacking, hn, hlen]

/-- Witness for the amended claim C3 at a concrete configuration. -/
theorem schema_conflicts_and_backing_runtime_check_witness :
    (buildControlPlaneNetworkBacking ⟨"dvpg-2", ["seg-a", "seg-b"]⟩).2 =
      some "control plane configuration cannot specify both `network` and `segments`" :=
  schema_conflicts_and_backing_runtime_check.2 ⟨"dvpg-2", ["seg-a", "seg-b"]⟩
    (by decide) (by decide)

/-- Claim C5, counterexample: the claim says that for every failing
create no partially created zone is left behind, but the Go code discards
the cleanup call's error (`_ = zm.DeleteZone(zoneName)`) — when the
second of two associations fails and the cleanup delete itself fails, the
create returns the association error while the zone, carrying only its
first association, remains on the remote side. -/
theorem zoneCreate_delete_failure_counterexample :
    (resourceVSphereZoneCreate none
        (fun c => if c = "cluster-2" then some "association failed" else none)
        (some "delete failed") ["cluster-1", "cluster-2"]).result =
      .error "association failed" ∧
    (resourceVSphereZoneCreate none
        (fun c => if c = "cluster-2" then some "association failed" else none)
        (some "delete failed") ["cluster-1", "cluster-2"]).zoneExists = true ∧
    (resourceVSphereZoneCreate none
        (fun c => if c = "cluster-2" then some "association failed" else none)
        (some "delete failed") ["cluster-1", "cluster-2"]).associations =
      ["cluster-1"] :=
  ⟨rfl, rfl, rfl⟩

/-- Claim C5 (amended): zone creation performs explicit manual cleanup on
partial failure — if the zone is created and adding a cluster association
fails, `DeleteZone` is invoked on the freshly created zone before the
error is returned, but its own error is discarded; consequently no
partially created zone is left behind whenever that cleanup delete
succeeds (and trivially when `CreateZone` itself fails), while a failed
cleanup delete leaves the partial zone in place. -/
theorem zoneCreate_cleanup_on_failure (createErr : Option String)
    (addErr : String → Option String) (deleteErr : Option String)
    (clusterIDs : List String) (e : String)
    (h : (resourceVSphereZoneCreate createErr addErr deleteErr clusterIDs).result =
      .error e) :
    (createErr = none →
      (resourceVSphereZoneCreate createErr addErr deleteErr clusterIDs).deleteCalled =
        true) ∧
    (deleteErr = none →
      (resourceVSphereZoneCreate createErr addErr deleteErr clusterIDs).zoneExists =
        false) := by
  cases createErr with
  | some e' =>
    constructor
    · intro hcontra; simp at hcontra
    · intro _; rfl
  | none =>
    simp only [resourceVSphereZoneCreate] at h ⊢
    have hc := zoneCreateAssociations_error_cleanup addErr deleteErr clusterIDs [] e h
    exact ⟨fun _ => hc.1, hc.2⟩

/-- Witness for the amended claim C5: a create whose second association
fails, with a succeeding cleanup delete, invokes the cleanup and leaves
no zone behind. -/
theorem zoneCreate_cleanup_on_failure_witness :
    (resourceVSphereZoneCreate none
        (fun c => if c = "cluster-2" then some "association failed" else none)
        none ["cluster-1", "cluster-2"]).deleteCalled = true ∧
    (resourceVSphereZoneCreate none
        (fun c => if c = "cluster-2" then some "association failed" else none)
        none ["cluster-1", "cluster-2"]).zoneExists = false :=
  ⟨(zoneCreate_cleanup_on_failure none
      (fun c => if c = "cluster-2" then some "association failed" else none)
      none ["cluster-1", "cluster-2"] "association failed" (by rfl)).1 rfl,
    (zoneCreate_cleanup_on_failure none
      (fun c => if c = "cluster-2" then some "association failed" else none)
      none ["cluster-1", "cluster-2"] "association failed" (by rfl)).2 rfl⟩

/-! ## Namespace creation wait loop (resource file for vsphere_namespace)

    `waitForNamespaceCreation` starts a context with a 2-minute deadline
    and a 15-second ticker; each tick calls `GetNamespaceV2`.  Polls are
    modelled as a stream indexed by tick number; the loop may consume at
    most `timeout / interval` ticks before the deadline case fires and it
    returns the creation-failure diagnostic. -/

/-- The ticker interval of `waitForNamespaceCreation`, in seconds. -/
def namespacePollIntervalSeconds : Nat := 15

/-- The context timeout of `waitForNamespaceCreation`, in seconds. -/
def namespaceCreateTimeoutSeconds : Nat := 120

/-- Number of ticker polls that can occur before the deadline. -/
def numNamespaceCreatePolls : Nat :=
  namespaceCreateTimeoutSeconds / namespacePollIntervalSeconds

/-- One `GetNamespaceV2` poll: either the call failed, or it returned an
instance whose `ConfigStatus` is the given string. -/
inductive NamespacePoll where
  | err (msg : String)
  | status (configStatus : String)
deriving DecidableEq

/-- Result of `waitForNamespaceCreation`. -/
inductive NamespaceWaitOutcome where
  | remoteError (msg : String)
  | success
  | createFailure (name : String)
deriving DecidableEq

/-- A poll that exits the loop: a failed call, or the `RUNNING` status. -/
def namespaceDecisive : NamespacePoll → Prop
  | .err _ => True
  | .status s => s = "RUNNING"

instance : DecidablePred namespaceDecisive := fun p => by
  cases p <;> simp [namespaceDecisive] <;> infer_instance

/-- Loop body of `waitForNamespaceCreation` with the remaining tick budget
as fuel: when the deadline fires first the creation-failure diagnostic
`failed to create namespace: <name>` is returned; a failed poll returns
the remote error unchanged; a `RUNNING` status returns nil; any other
status keeps polling. -/
def waitForNamespaceCreationAux (name : String) (polls : Nat → NamespacePoll) :
    Nat → Nat → NamespaceWaitOutcome
  | 0, _ => .createFailure name
  | fuel + 1, i =>
    match polls i with
    | .err e => .remoteError e
    | .status s =>
      if s = "RUNNING" then .success
      else waitForNamespaceCreationAux name polls fuel (i + 1)

/-- `waitForNamespaceCreation`, started with the full tick budget. -/
def waitForNamespaceCreation (name : String) (polls : Nat → NamespacePoll) :
    NamespaceWaitOutcome :=
  waitForNamespaceCreationAux name polls numNamespaceCreatePolls 0

lemma nsAux_success_iff (name : String) (polls : Nat → NamespacePoll) :
    ∀ fuel i, waitForNamespaceCreationAux name polls fuel i = .success ↔
      ∃ k, k < fuel ∧ polls (i + k) = .status "RUNNING" ∧
        ∀ j, j < k → ¬ namespaceDecisive (polls (i + j)) := by
  intro fuel
  induction fuel with
  | zero => intro i; simp [waitForNamespaceCreationAux]
  | succ f ih =>
    intro i
    simp only [waitForNamespaceCreationAux]
    cases hp : polls i with
    | err e =>
      constructor
      · intro h; simp at h
      · rintro ⟨k, hk, hrun, hall⟩
        cases k with
        | zero => rw [Nat.add_zero, hp] at hrun; simp at hrun
        | succ k' =>
          have h0 := hall 0 (Nat.succ_pos k')
          rw [Nat.add_zero, hp] at h0
          simp [namespaceDecisive] at h0
    | status s =>
      by_cases hs : s = "RUNNING"
      · subst hs
        simp only [if_pos rfl]
        constructor
        · intro _
          exact ⟨0, Nat.succ_pos f, by simpa using hp,
            fun j hj => absurd hj (Nat.not_lt_zero j)⟩
        · intro _; rfl
      · simp only [if_neg hs]
        rw [ih (i + 1)]
        constructor
        · rintro ⟨k, hk, hrun, hall⟩
          refine ⟨k + 1, by omega, ?_, ?_⟩
          · have harith : i + (k + 1) = i + 1 + k := by omega
            rw [harith]; exact hrun
          · intro j hj
            cases j with
            | zero =>
              rw [Nat.add_zero, hp]
              simp [namespaceDecisive, hs]
            | succ j' =>
              have harith : i + (j' + 1) = i + 1 + j' := by omega
              rw [harith]
              exact hall j' (by omega)
        · rintro ⟨k, hk, hrun, hall⟩
          cases k with
          | zero =>
            rw [Nat.add_zero, hp] at hrun
            injection hrun with h'
            exact absurd h' hs
          | succ k' =>
            refine ⟨k', by omega, ?_, ?_⟩
            · have harith : i + 1 + k' = i + (k' + 1) := by omega
              rw [harith]; exact hrun
            · intro j hj
              have harith : i + 1 + j = i + (j + 1) := by omega
              rw [harith]
              exact hall (j + 1) (by omega)

lemma nsAux_err_iff (name : String) (polls : Nat → NamespacePoll) (e : String) :
    ∀ fuel i, waitForNamespaceCreationAux name polls fuel i = .remoteError e ↔
      ∃ k, k < fuel ∧ polls (i + k) = .err e ∧
        ∀ j, j < k → ¬ namespaceDecisive (polls (i + j)) := by
  intro fuel
  induction fuel with
  | zero => intro i; simp [waitForNamespaceCreationAux]
  | succ f ih =>
    intro i
    simp only [waitForNamespaceCreationAux]
    cases hp : polls i with
    | err e' =>
      constructor
      · intro h
        injection h with h'
        exact ⟨0, Nat.succ_pos f, by simpa [h'] using hp,
          fun j hj => absurd hj (Nat.not_lt_zero j)⟩
      · rintro ⟨k, hk, herr, hall⟩
        cases k with
        | zero =>
          rw [Nat.add_zero, hp] at herr
          injection herr with h'
          rw [h']
        | succ k' =>
          have h0 := hall 0 (Nat.succ_pos k')
          rw [Nat.add_zero, hp] at h0
          simp [namespaceDecisive] at h0
    | status s =>
      by_cases hs : s = "RUNNING"
      · subst hs
        simp only [if_pos rfl]
        constructor
        · intro h; simp at h
        · rintro ⟨k, hk, herr, hall⟩
          cases k with
          | zero => rw [Nat.add_zero, hp] at herr; simp at herr
          | succ k' =>
            have h0 := hall 0 (Nat.succ_pos k')
            rw [Nat.add_zero, hp] at h0
            simp [namespaceDecisive] at h0
      · simp only [if_neg hs]
        rw [ih (i + 1)]
        constructor
        · rintro ⟨k, hk, herr, hall⟩
          refine ⟨k + 1, by omega, ?_, ?_⟩
          · have harith : i + (k + 1) = i + 1 + k := by omega
            rw [harith]; exact herr
          · intro j hj
            cases j with
            | zero =>
              rw [Nat.add_zero, hp]
              simp [namespaceDecisive, hs]
            | succ j' =>
              have harith : i + (j' + 1) = i + 1 + j' := by omega
              rw [harith]
              exact hall j' (by omega)
        · rintro ⟨k, hk, herr, hall⟩
          cases k with
          | zero =>
            rw [Nat.add_zero, hp] at herr
            simp at herr
          | succ k' =>
            refine ⟨k', by omega, ?_, ?_⟩
            · have harith : i + 1 + k' = i + (k' + 1) := by omega
              rw [harith]; exact herr
            · intro j hj
              have harith : i + 1 + j = i + (j + 1) := by omega
              rw [harith]
              exact hall (j + 1) (by omega)

lemma nsAux_timeout_iff (name : String) (polls : Nat → NamespacePoll) :
    ∀ fuel i, waitForNamespaceCreationAux name polls fuel i = .createFailure name ↔
      ∀ k, k < fuel → ¬ namespaceDecisive (polls (i + k)) := by
  intro fuel
  induction fuel with
  | zero => intro i; simp [waitForNamespaceCreationAux]
  | succ f ih =>
    intro i
    simp only [waitForNamespaceCreationAux]
    cases hp : polls i with
    | err e =>
      constructor
      · intro h; simp at h
      · intro hall
        have h0 := hall 0 (Nat.succ_pos f)
        rw [Nat.add_zero, hp] at h0
        simp [namespaceDecisive] at h0
    | status s =>
      by_cases hs : s = "RUNNING"
      · subst hs
        simp only [if_pos rfl]
        constructor
        · intro h; simp at h
        · intro hall
          have h0 := hall 0 (Nat.succ_pos f)
          rw [Nat.add_zero, hp] at h0
          simp [namespaceDecisive] at h0
      · simp only [if_neg hs]
        rw [ih (i + 1)]
        constructor
        · intro hall k hk
          cases k with
          | zero =>
            rw [Nat.add_zero, hp]
            simp [namespaceDecisive, hs]
          | succ k' =>
            have harith : i + (k' + 1) = i + 1 + k' := by omega
            rw [harith]
            exact hall k' (by omega)
        · intro hall k hk
          have harith : i + 1 + k = i + (k + 1) := by omega
          rw [harith]
          exact hall (k + 1) (by omega)

/-! ## Claim C7 -/

/-- Claim C7: `waitForNamespaceCreation` blocks until a timeout or
terminal condition — it polls at a fixed 15-second interval under a fixed
2-minute deadline, returns success exactly when some in-budget poll
reports the `RUNNING` config status (all earlier polls being
non-decisive), returns the remote error of the first failing poll
immediately, and returns the creation-failure diagnostic exactly when no
in-budget poll is decisive; the outcome type admits nothing else. -/
theorem waitForNamespaceCreation_characterization (name : String)
    (polls : Nat → NamespacePoll) :
    namespacePollIntervalSeconds = 15 ∧ namespaceCreateTimeoutSeconds = 120 ∧
    (waitForNamespaceCreation name polls = .success ↔
      ∃ k, k < numNamespaceCreatePolls ∧ polls k = .status "RUNNING" ∧
        ∀ j, j < k → ¬ namespaceDecisive (polls j)) ∧
    (∀ e, waitForNamespaceCreation name polls = .remoteError e ↔
      ∃ k, k < numNamespaceCreatePolls ∧ polls k = .err e ∧
        ∀ j, j < k → ¬ namespaceDecisive (polls j)) ∧
    (waitForNamespaceCreation name polls = .createFailure name ↔
      ∀ k, k < numNamespaceCreatePolls → ¬ namespaceDecisive (polls k)) := by
  have hs := nsAux_success_iff name polls numNamespaceCreatePolls 0
  have he := fun e => nsAux_err_iff name polls e numNamespaceCreatePolls 0
  have ht := nsAux_timeout_iff name polls numNamespaceCreatePolls 0
  simp only [Nat.zero_add] at hs he ht
  exact ⟨rfl, rfl, hs, he, ht⟩

/-! ## Config-profile diff suppression (resource file for
    vsphere_config_profile)

    `configDiffSuppressFunc` feeds both strings to `json.Unmarshal` with a
    `map[string]interface{}` target, deletes the top-level `metadata` key
    from each map and compares with `reflect.DeepEqual`.  A document
    string is modelled by its decode outcome: `none` for text that is not
    valid JSON, `some v` for the decoded value.  Go maps are represented
    canonically as key-ordered, duplicate-free field lists (decoding can
    produce nothing else), so `reflect.DeepEqual` on decoded values is
    structural equality; JSON numbers are restricted to integers (the
    claims at issue do not involve numeric fineness).  `json.Unmarshal`
    into a map succeeds exactly on a JSON object or the JSON literal
    `null`, the latter leaving the map nil; `reflect.DeepEqual`
    distinguishes a nil map from an empty one, so nil is tracked as an
    outer `Option`. -/

inductive Json where
  | null
  | bool (b : Bool)
  | num (n : Int)
  | str (s : String)
  | arr (elems : List Json)
  | obj (fields : List (String × Json))

/-- Structural equality of decoded JSON values (`reflect.DeepEqual` on the
canonical representation). -/
def Json.beq : Json → Json → Bool
  | .null, .null => true
  | .bool a, .bool b => a == b
  | .num a, .num b => a == b
  | .str a, .str b => a == b
  | .arr [], .arr [] => true
  | .arr (x :: xs), .arr (y :: ys) => Json.beq x y && Json.beq (.arr xs) (.arr ys)
  | .obj [], .obj [] => true
  | .obj ((k1, v1) :: xs), .obj ((k2, v2) :: ys) =>
      k1 == k2 && Json.beq v1 v2 && Json.beq (.obj xs) (.obj ys)
  | _, _ => false

theorem Json.beq_iff (a b : Json) : Json.beq a b = true ↔ a = b := by
  induction a, b using Json.beq.induct <;> simp_all [Json.beq]
  next a b hnull hb hnum hstr han hac hon hoc =>
    intro h
    subst h
    cases a with
    | null => exact hnull rfl rfl
    | bool v =>
      cases v with
      | false => exact hb.1.1 rfl rfl
      | true => exact hb.2.2 rfl rfl
    | num n => exact hnum n n rfl rfl
    | str s => exact hstr s s rfl rfl
    | arr l =>
      cases l with
      | nil => exact han rfl rfl
      | cons x xs => exact hac x xs x xs rfl rfl
    | obj l =>
      cases l with
      | nil => exact hon rfl rfl
      | cons p ps => exact hoc p.1 p.2 ps p.1 p.2 ps rfl rfl

instance : DecidableEq Json := fun a b => decidable_of_iff _ (Json.beq_iff a b)

/-- `json.Unmarshal(data, &m)` for `m : map[string]interface{}`, on the
decode outcome of the document: fails when the text is not valid JSON or
the value is neither an object nor `null`; `null` yields the nil map. -/
def unmarshalStringMap : Option Json → Option (Option (List (String × Json)))
  | none => none
  | some .null => some none
  | some (.obj fields) => some (some fields)
  | some _ => none

/-- Go's `delete(m, k)`: a no-op on the nil map. -/
def mapDelete (k : String) : Option (List (String × Json)) → Option (List (String × Json))
  | none => none
  | some fields => some (fields.filter fun f => f.1 ≠ k)

/-- `configDiffSuppressFunc`: suppress when both strings unmarshal into
maps that are deeply equal after deleting the top-level `metadata` key. -/
def configDiffSuppressFunc (old new : Option Json) : Bool :=
  match unmarshalStringMap old with
  | none => false
  | some oldMap =>
    match unmarshalStringMap new with
    | none => false
    | some newMap =>
      decide (mapDelete "metadata" oldMap = mapDelete "metadata" newMap)

/-! ## Claim C8 -/

/-- Claim C8, counterexample: the claim says the diff is suppressed only
when both strings parse as JSON objects, yet for the document `null` —
which is valid JSON but not an object — `json.Unmarshal` succeeds with a
nil map on both sides and the diff **is** suppressed. -/
theorem configDiffSuppress_null_counterexample :
    configDiffSuppressFunc (some .null) (some .null) = true ∧
    (∀ fields, Json.null ≠ Json.obj fields) :=
  ⟨rfl, fun _ => Json.noConfusion⟩

/-- Claim C8 (amended): the diff is suppressed iff both strings decode
successfully into Go maps — each document being either a JSON object or
the JSON literal `null` (which decodes to the nil map, equal only to
itself) — and the two maps are deeply equal after deleting the top-level
`metadata` key of each; if either string is not valid JSON, or is a valid
non-object non-null document, the diff is never suppressed. -/
theorem configDiffSuppress_iff (old new : Option Json) :
    configDiffSuppressFunc old new = true ↔
      ∃ oldMap newMap, unmarshalStringMap old = some oldMap ∧
        unmarshalStringMap new = some newMap ∧
        mapDelete "metadata" oldMap = mapDelete "metadata" newMap := by
  unfold configDiffSuppressFunc
  cases ho : unmarshalStringMap old with
  | none => simp
  | some oldMap =>
    cases hn : unmarshalStringMap new with
    | none => simp
    | some newMap => simp

/-! ## Alarm expression / action translation (package alarm)

    The alarm resource's attribute tree is modelled by structures whose
    fields are named after the schema keys; the same structures stand for
    the `map[string]any` attribute maps produced by the flatten direction,
    whose keys are identical.  The govmomi `types` enums are string-typed
    in Go and stay `String` here.  Terraform's `TypeInt` is a Go `int`
    (modelled as `Int`); the Go code converts with `int32(...)`, modelled
    by two's-complement truncation. -/

/-- Managed entity status enum values used by the provider. -/
def ManagedEntityStatusRed : String := "red"

def ManagedEntityStatusYellow : String := "yellow"

def ManagedEntityStatusGreen : String := "green"

def ManagedEntityStatusGray : String := "gray"

def MetricAlarmOperatorIsAbove : String := "isAbove"

def MetricAlarmOperatorIsBelow : String := "isBelow"

def StateAlarmOperatorIsEqual : String := "isEqual"

def StateAlarmOperatorIsUnequal : String := "isUnequal"

/-- `getStatusFromString`. -/
def getStatusFromString : String → Except String String
  | "red" => .ok ManagedEntityStatusRed
  | "yellow" => .ok ManagedEntityStatusYellow
  | "green" => .ok ManagedEntityStatusGreen
  | "gray" => .ok ManagedEntityStatusGray
  | s => .error ("unknown status: " ++ s)

/-- `getMetricOperatorFromString`. -/
def getMetricOperatorFromString : String → Except String String
  | "isAbove" => .ok MetricAlarmOperatorIsAbove
  | "isBelow" => .ok MetricAlarmOperatorIsBelow
  | s => .error ("unknown metric operator: " ++ s)

/-- `getStateAlarmOperatorFromString`. -/
def getStateAlarmOperatorFromString : String → Except String String
  | "isEqual" => .ok StateAlarmOperatorIsEqual
  | "isUnequal" => .ok StateAlarmOperatorIsUnequal
  | s => .error ("unknown state alarm operator: " ++ s)

/-- Go `int32(n)` for a Go `int` value: two's-complement truncation. -/
def toInt32 (n : Int) : Int := (n + 2147483648) % 4294967296 - 2147483648

abbrev int32InRange (n : Int) : Prop := -2147483648 ≤ n ∧ n < 2147483648

lemma toInt32_eq_self {n : Int} (h : int32InRange n) : toInt32 n = n := by
  obtain ⟨h1, h2⟩ := h
  unfold toInt32
  omega

/-- One entry of the `comparison` attribute list (also the flattened map
of a `types.EventAlarmExpressionComparison`). -/
structure ComparisonAttr where
  attribute_name : String
  operator : String
  value : String
deriving DecidableEq

/-- One entry of the `event_expression` attribute list (also the
flattened map of a `types.EventAlarmExpression`); field order follows the
flatten direction's map literal. -/
structure EventExpressionAttr where
  event_type : String
  event_type_id : String
  object_type : String
  comparison : List ComparisonAttr
  status : String
deriving DecidableEq

/-- One entry of the `state_expression` attribute list (also the
flattened map of a `types.StateAlarmExpression`). -/
structure StateExpressionAttr where
  operator : String
  object_type : String
  state_path : String
  yellow : String
  red : String
deriving DecidableEq

/-- One entry of the `metric_expression` attribute list (also the
flattened map of a `types.MetricAlarmExpression`). -/
structure MetricExpressionAttr where
  operator : String
  object_type : String
  metric_counter_id : Int
  metric_instance : String
  yellow : Int
  red : Int
  red_interval : Int
  yellow_interval : Int
deriving DecidableEq

/-- One entry of the `email_action` attribute list (the `to` and `cc`
keys are named after the Go `SendEmailAction` fields they feed, since
`to` is reserved in Lean). -/
structure EmailActionAttr where
  subject : String
  toList : String
  ccList : String
  body : String
  start_state : String
  final_state : String
  repeats : Bool
deriving DecidableEq

/-- One entry of the `snmp_action` attribute list. -/
structure SnmpActionAttr where
  start_state : String
  final_state : String
  repeats : Bool
deriving DecidableEq

/-- One entry of the `advanced_action` attribute list. -/
structure AdvancedActionAttr where
  name : String
  start_state : String
  final_state : String
  repeats : Bool
deriving DecidableEq

/-- The alarm resource data read by `GetAlarmSpec` and its helpers
(schema keys as field names; the `repeat` key is called `repeats`). -/
structure AlarmData where
  name : String
  description : String
  enabled : Bool
  expression_operator : String
  event_expression : List EventExpressionAttr
  state_expression : List StateExpressionAttr
  metric_expression : List MetricExpressionAttr
  email_action : List EmailActionAttr
  snmp_action : List SnmpActionAttr
  advanced_action : List AdvancedActionAttr
deriving DecidableEq

/-- govmomi `types.EventAlarmExpressionComparison`. -/
structure EventAlarmExpressionComparison where
  attributeName : String
  operator : String
  value : String
deriving DecidableEq

/-- govmomi `types.EventAlarmExpression` (the fields set by the
provider). -/
structure EventAlarmExpression where
  objectType : String
  eventType : String
  status : String
  eventTypeId : String
  comparisons : List EventAlarmExpressionComparison
deriving DecidableEq

/-- govmomi `types.StateAlarmExpression`. -/
structure StateAlarmExpression where
  operator : String
  type : String
  statePath : String
  yellow : String
  red : String
deriving DecidableEq

/-- govmomi `types.PerfMetricId`. -/
structure PerfMetricId where
  counterId : Int
  instanceName : String
deriving DecidableEq

/-- govmomi `types.MetricAlarmExpression`. -/
structure MetricAlarmExpression where
  operator : String
  type : String
  metric : PerfMetricId
  yellow : Int
  yellowInterval : Int
  red : Int
  redInterval : Int
deriving DecidableEq

/-- govmomi `types.BaseAlarmExpression`: the three implementations built
by the provider, plus a stand-in for any other implementation of the Go
interface (e.g. `OrAlarmExpression`), on which the flatten direction's
default branch fails. -/
inductive BaseAlarmExpression where
  | event (e : EventAlarmExpression)
  | state (s : StateAlarmExpression)
  | metric (m : MetricAlarmExpression)
  | other (typeName : String)
deriving DecidableEq

/-- The `Expressions` result of the flatten direction: one attribute-map
list per expression kind. -/
structure Expressions where
  eventExpressions : List EventExpressionAttr
  stateExpressions : List StateExpressionAttr
  metricExpressions : List MetricExpressionAttr
deriving DecidableEq

/-- Loop of `GetExpressions` (flatten, remote to local): dispatches each
expression on its concrete type, appending its attribute map to the
matching list; an unknown expression type aborts with the expressions
collected so far and an error. -/
def getExpressionsAux (acc : Expressions) : List BaseAlarmExpression → Expressions × Option String
  | [] => (acc, none)
  | .event e :: rest =>
    getExpressionsAux
      { acc with eventExpressions := acc.eventExpressions ++
          [⟨e.eventType, e.eventTypeId, e.objectType,
            e.comparisons.map (fun c => ⟨c.attributeName, c.operator, c.value⟩),
            e.status⟩] } rest
  | .state s :: rest =>
    getExpressionsAux
      { acc with stateExpressions := acc.stateExpressions ++
          [⟨s.operator, s.type, s.statePath, s.yellow, s.red⟩] } rest
  | .metric m :: rest =>
    getExpressionsAux
      { acc with metricExpressions := acc.metricExpressions ++
          [⟨m.operator, m.type, m.metric.counterId, m.metric.instanceName,
            m.yellow, m.red, m.redInterval, m.yellowInterval⟩] } rest
  | .other t :: _ => (acc, some ("unknown expression type: " ++ t))

/-- `GetExpressions` (flatten). -/
def GetExpressions (b : List BaseAlarmExpression) : Expressions × Option String :=
  getExpressionsAux ⟨[], [], []⟩ b

/-- Event-expression part of `GetBaseExpressions` (expand, local to
remote): parses the status and copies the attributes. -/
def buildEventExpressions : List EventExpressionAttr → Except String (List BaseAlarmExpression)
  | [] => .ok []
  | cfg :: rest =>
    match getStatusFromString cfg.status with
    | .error e => .error ("alarm event_expression error: " ++ e)
    | .ok st =>
      match buildEventExpressions rest with
      | .error e => .error e
      | .ok more =>
        .ok (.event ⟨cfg.object_type, cfg.event_type, st, cfg.event_type_id,
          cfg.comparison.map (fun c => ⟨c.attribute_name, c.operator, c.value⟩)⟩ :: more)

/-- State-expression part of `GetBaseExpressions`. -/
def buildStateExpressions : List StateExpressionAttr → Except String (List BaseAlarmExpression)
  | [] => .ok []
  | cfg :: rest =>
    match getStateAlarmOperatorFromString cfg.operator with
    | .error e => .error e
    | .ok op =>
      match buildStateExpressions rest with
      | .error e => .error e
      | .ok more =>
        .ok (.state ⟨op, cfg.object_type, cfg.state_path, cfg.yellow, cfg.red⟩ :: more)

/-- Metric-expression part of `GetBaseExpressions`; the integer
attributes go through `int32(...)`. -/
def buildMetricExpressions : List MetricExpressionAttr → Except String (List BaseAlarmExpression)
  | [] => .ok []
  | cfg :: rest =>
    match getMetricOperatorFromString cfg.operator with
    | .error e => .error e
    | .ok op =>
      match buildMetricExpressions rest with
      | .error e => .error e
      | .ok more =>
        .ok (.metric ⟨op, cfg.object_type,
          ⟨toInt32 cfg.metric_counter_id, cfg.metric_instance⟩,
          toInt32 cfg.yellow, toInt32 cfg.yellow_interval,
          toInt32 cfg.red, toInt32 cfg.red_interval⟩ :: more)

/-- `GetBaseExpressions` (expand): event, then state, then metric
expressions, in order, aborting on the first parse error. -/
def GetBaseExpressions (d : AlarmData) : Except String (List BaseAlarmExpression) :=
  match buildEventExpressions d.event_expression with
  | .error e => .error e
  | .ok evs =>
    match buildStateExpressions d.state_expression with
    | .error e => .error e
    | .ok sts =>
      match buildMetricExpressions d.metric_expression with
      | .error e => .error e
      | .ok mes => .ok (evs ++ sts ++ mes)

/-- govmomi `types.AlarmTriggeringActionTransitionSpec`. -/
structure AlarmTriggeringActionTransitionSpec where
  startState : String
  finalState : String
  repeats : Bool
deriving DecidableEq

/-- A `types.MethodActionArgument` value: the provider only ever passes
`int32` and `bool` literals. -/
inductive MethodActionArgument where
  | intArg (n : Int)
  | boolArg (b : Bool)
deriving DecidableEq

/-- The inner `types.BaseAction` of an `AlarmTriggeringAction` as built by
the provider. -/
inductive AlarmActionInner where
  | sendEmail (subject toList ccList body : String)
  | sendSNMP
  | methodAction (name : String) (argument : List MethodActionArgument)
deriving DecidableEq

/-- govmomi `types.AlarmTriggeringAction`. -/
structure AlarmTriggeringAction where
  action : AlarmActionInner
  transitionSpecs : List AlarmTriggeringActionTransitionSpec
deriving DecidableEq

/-- `getActionTransitionSpecs`: parses the `start_state` and
`final_state` attributes of an action entry. -/
def getActionTransitionSpecs (start_state final_state : String) (repeats : Bool) :
    Except String AlarmTriggeringActionTransitionSpec :=
  match getStatusFromString start_state with
  | .error e => .error e
  | .ok ss =>
    match getStatusFromString final_state with
    | .error e => .error e
    | .ok fs => .ok ⟨ss, fs, repeats⟩

/-- Email-action part of `GetBaseActions`. -/
def buildEmailActions : List EmailActionAttr → Except String (List AlarmTriggeringAction)
  | [] => .ok []
  | a :: rest =>
    match getActionTransitionSpecs a.start_state a.final_state a.repeats with
    | .error e => .error e
    | .ok ts =>
      match buildEmailActions rest with
      | .error e => .error e
      | .ok more => .ok (⟨.sendEmail a.subject a.toList a.ccList a.body, [ts]⟩ :: more)

/-- Snmp-action part of `GetBaseActions`. -/
def buildSnmpActions : List SnmpActionAttr → Except String (List AlarmTriggeringAction)
  | [] => .ok []
  | a :: rest =>
    match getActionTransitionSpecs a.start_state a.final_state a.repeats with
    | .error e => .error e
    | .ok ts =>
      match buildSnmpActions rest with
      | .error e => .error e
      | .ok more => .ok (⟨.sendSNMP, [ts]⟩ :: more)

/-- The hardcoded default task parameters of the advanced actions. -/
def advancedActionArgs : String → List MethodActionArgument
  | "PowerDownHostToStandBy_Task" => [.intArg 0, .boolArg false]
  | "PowerUpHostFromStandBy_Task" => [.intArg 0]
  | "EnterMaintenanceMode_Task" => [.intArg 0, .boolArg false]
  | "ExitMaintenanceMode_Task" => [.intArg 0]
  | "RebootHost_Task" => [.boolArg false]
  | "ShutdownHost_Task" => [.boolArg false]
  | _ => []

/-- Advanced-action part of `GetBaseActions`. -/
def buildAdvancedActions : List AdvancedActionAttr → Except String (List AlarmTriggeringAction)
  | [] => .ok []
  | a :: rest =>
    match getActionTransitionSpecs a.start_state a.final_state a.repeats with
    | .error e => .error e
    | .ok ts =>
      match buildAdvancedActions rest with
      | .error e => .error e
      | .ok more =>
        .ok (⟨.methodAction a.name (advancedActionArgs a.name), [ts]⟩ :: more)

/-- `GetBaseActions`: email, snmp and advanced actions in order inside a
`GroupAlarmAction`; when no action is configured the Go code returns
`nil, nil`, modelled as `none`. -/
def GetBaseActions (d : AlarmData) : Except String (Option (List AlarmTriggeringAction)) :=
  match buildEmailActions d.email_action with
  | .error e => .error e
  | .ok emails =>
    match buildSnmpActions d.snmp_action with
    | .error e => .error e
    | .ok snmps =>
      match buildAdvancedActions d.advanced_action with
      | .error e => .error e
      | .ok advs =>
        let allActions := emails ++ snmps ++ advs
        if allActions.length = 0 then .ok none else .ok (some allActions)

/-- The top-level alarm expression: the Go code wraps the expression list
in an `Or`/`And` expression depending on `expression_operator`, leaving
it nil for any other operator value. -/
inductive AlarmTopExpression where
  | orExpr (expression : List BaseAlarmExpression)
  | andExpr (expression : List BaseAlarmExpression)
deriving DecidableEq

/-- govmomi `types.AlarmSetting`. -/
structure AlarmSetting where
  toleranceRange : Int
  reportingFrequency : Int
deriving DecidableEq

/-- govmomi `types.AlarmSpec` (the fields set by the provider). -/
structure AlarmSpec where
  name : String
  description : String
  enabled : Bool
  systemName : String
  expression : Option AlarmTopExpression
  action : Option (List AlarmTriggeringAction)
  actionFrequency : Int
  setting : AlarmSetting
deriving DecidableEq

/-- `GetAlarmSpec`: computes the expressions (wrapping a failure), rejects
an empty expression list, wraps it with the `expression_operator`,
computes the actions (wrapping a failure), and fills the remaining spec
fields with constants. -/
def GetAlarmSpec (d : AlarmData) : Except String AlarmSpec :=
  match GetBaseExpressions d with
  | .error e => .error ("failed to compute expressions: " ++ e)
  | .ok fromExpressions =>
    if fromExpressions.length = 0 then
      .error "an alarm must be contain at least one expression"
    else
      let expressions : Option AlarmTopExpression :=
        if d.expression_operator = "or" then some (.orExpr fromExpressions)
        else if d.expression_operator = "and" then some (.andExpr fromExpressions)
        else none
      match GetBaseActions d with
      | .error e => .error ("failed to compute actions: " ++ e)
      | .ok actions =>
        .ok ⟨d.name, d.description, d.enabled, "", expressions, actions, 0, ⟨0, 300⟩⟩

/-! ## Lemmas about the alarm translation -/

lemma getStatusFromString_ok {s t : String} (h : getStatusFromString s = .ok t) :
    t = s := by
  unfold getStatusFromString at h
  split at h <;>
    simp_all [ManagedEntityStatusRed, ManagedEntityStatusYellow,
      ManagedEntityStatusGreen, ManagedEntityStatusGray]

lemma getStateAlarmOperatorFromString_ok {s t : String}
    (h : getStateAlarmOperatorFromString s = .ok t) : t = s := by
  unfold getStateAlarmOperatorFromString at h
  split at h <;> simp_all [StateAlarmOperatorIsEqual, StateAlarmOperatorIsUnequal]

lemma getMetricOperatorFromString_ok {s t : String}
    (h : getMetricOperatorFromString s = .ok t) : t = s := by
  unfold getMetricOperatorFromString at h
  split at h <;> simp_all [MetricAlarmOperatorIsAbove, MetricAlarmOperatorIsBelow]

lemma comparisons_roundtrip (l : List ComparisonAttr) :
    l.map ((fun c : EventAlarmExpressionComparison =>
        (⟨c.attributeName, c.operator, c.value⟩ : ComparisonAttr)) ∘
      fun c : ComparisonAttr =>
        (⟨c.attribute_name, c.operator, c.value⟩ : EventAlarmExpressionComparison)) = l := by
  induction l with
  | nil => rfl
  | cons c rest ih =>
    rw [List.map_cons, ih]
    rfl

lemma flatten_events (cfgs : List EventExpressionAttr) :
    ∀ evs, buildEventExpressions cfgs = .ok evs →
      ∀ acc rest, getExpressionsAux acc (evs ++ rest) =
        getExpressionsAux
          { acc with eventExpressions := acc.eventExpressions ++ cfgs } rest := by
  induction cfgs with
  | nil =>
    intro evs h acc rest
    simp only [buildEventExpressions, Except.ok.injEq] at h
    subst h
    simp
  | cons cfg cfgs ih =>
    intro evs h acc rest
    cases hst : getStatusFromString cfg.status with
    | error e => simp [buildEventExpressions, hst] at h
    | ok st =>
      cases hrest : buildEventExpressions cfgs with
      | error e => simp [buildEventExpressions, hst, hrest] at h
      | ok more =>
        simp only [buildEventExpressions, hst, hrest, Except.ok.injEq] at h
        subst h
        have hstid : st = cfg.status := getStatusFromString_ok hst
        subst hstid
        simp only [List.cons_append, getExpressionsAux, List.append_eq]
        rw [ih more hrest]
        congr 1
        simp [comparisons_roundtrip]

lemma flatten_states (cfgs : List StateExpressionAttr) :
    ∀ sts, buildStateExpressions cfgs = .ok sts →
      ∀ acc rest, getExpressionsAux acc (sts ++ rest) =
        getExpressionsAux
          { acc with stateExpressions := acc.stateExpressions ++ cfgs } rest := by
  induction cfgs with
  | nil =>
    intro sts h acc rest
    simp only [buildStateExpressions, Except.ok.injEq] at h
    subst h
    simp
  | cons cfg cfgs ih =>
    intro sts h acc rest
    cases hop : getStateAlarmOperatorFromString cfg.operator with
    | error e => simp [buildStateExpressions, hop] at h
    | ok op =>
      cases hrest : buildStateExpressions cfgs with
      | error e => simp [buildStateExpressions, hop, hrest] at h
      | ok more =>
        simp only [buildStateExpressions, hop, hrest, Except.ok.injEq] at h
        subst h
        have hopid : op = cfg.operator := getStateAlarmOperatorFromString_ok hop
        subst hopid
        simp only [List.cons_append, getExpressionsAux, List.append_eq]
        rw [ih more hrest]
        congr 1
        simp

lemma flatten_metrics (cfgs : List MetricExpressionAttr) :
    ∀ mes, buildMetricExpressions cfgs = .ok mes →
      (∀ m ∈ cfgs, int32InRange m.metric_counter_id ∧ int32InRange m.yellow ∧
        int32InRange m.yellow_interval ∧ int32InRange m.red ∧
        int32InRange m.red_interval) →
      ∀ acc rest, getExpressionsAux acc (mes ++ rest) =
        getExpressionsAux
          { acc with metricExpressions := acc.metricExpressions ++ cfgs } rest := by
  induction cfgs with
  | nil =>
    intro mes h _ acc rest
    simp only [buildMetricExpressions, Except.ok.injEq] at h
    subst h
    simp
  | cons cfg cfgs ih =>
    intro mes h hrange acc rest
    cases hop : getMetricOperatorFromString cfg.operator with
    | error e => simp [buildMetricExpressions, hop] at h
    | ok op =>
      cases hrest : buildMetricExpressions cfgs with
      | error e => simp [buildMetricExpressions, hop, hrest] at h
      | ok more =>
        simp only [buildMetricExpressions, hop, hrest, Except.ok.injEq] at h
        subst h
        have hopid : op = cfg.operator := getMetricOperatorFromString_ok hop
        subst hopid
        obtain ⟨h1, h2, h3, h4, h5⟩ := hrange cfg (List.mem_cons_self cfg cfgs)
        simp only [List.cons_append, getExpressionsAux, List.append_eq]
        rw [ih more hrest (fun m hm => hrange m (List.mem_cons_of_mem cfg hm))]
        congr 1
        simp [toInt32_eq_self h1, toInt32_eq_self h2, toInt32_eq_self h3,
          toInt32_eq_self h4, toInt32_eq_self h5]

/-! ## Claim C6 -/

/-- Configuration with a metric counter id just past the `int32` range,
used to exhibit the truncation in the expand direction. -/
def alarmOverflowData : AlarmData :=
  ⟨"alarm-2", "", true, "or", [], [],
    [⟨"isAbove", "HostSystem", 2147483648, "", 0, 0, 0, 0⟩], [], [], []⟩

/-- Claim C6, counterexample: a configuration with metric counter id
2147483648 is accepted by `GetBaseExpressions`, but the Go `int32(...)`
conversion truncates it, so the flattened `metric_counter_id` attribute is
-2147483648 and does not equal the original configuration attribute. -/
theorem alarm_roundtrip_int32_counterexample :
    GetBaseExpressions alarmOverflowData =
      .ok [.metric ⟨"isAbove", "HostSystem", ⟨-2147483648, ""⟩, 0, 0, 0, 0⟩] ∧
    GetExpressions [.metric ⟨"isAbove", "HostSystem", ⟨-2147483648, ""⟩, 0, 0, 0, 0⟩] =
      (⟨[], [], [⟨"isAbove", "HostSystem", -2147483648, "", 0, 0, 0, 0⟩]⟩, none) ∧
    (⟨"isAbove", "HostSystem", -2147483648, "", 0, 0, 0, 0⟩ : MetricExpressionAttr) ≠
      ⟨"isAbove", "HostSystem", 2147483648, "", 0, 0, 0, 0⟩ :=
  ⟨rfl, rfl, by decide⟩

/-- Claim C6 (amended): for every alarm configuration accepted by
`GetBaseExpressions` (the expand direction) whose metric integer
attributes fit in `int32`, applying `GetExpressions` (the flatten
direction) to the produced expression list succeeds and yields event,
state and metric attribute maps equal to the original configuration
attributes; configurations with out-of-range integers are also accepted
but round-trip to their `int32`-truncated values. -/
theorem alarm_expressions_roundtrip (d : AlarmData) (exprs : List BaseAlarmExpression)
    (hrange : ∀ m ∈ d.metric_expression, int32InRange m.metric_counter_id ∧
      int32InRange m.yellow ∧ int32InRange m.yellow_interval ∧
      int32InRange m.red ∧ int32InRange m.red_interval)
    (hok : GetBaseExpressions d = .ok exprs) :
    GetExpressions exprs =
      (⟨d.event_expression, d.state_expression, d.metric_expression⟩, none) := by
  unfold GetBaseExpressions at hok
  cases hev : buildEventExpressions d.event_expression with
  | error e => rw [hev] at hok; simp at hok
  | ok evs =>
    rw [hev] at hok
    cases hst : buildStateExpressions d.state_expression with
    | error e => rw [hst] at hok; simp at hok
    | ok sts =>
      rw [hst] at hok
      cases hme : buildMetricExpressions d.metric_expression with
      | error e => rw [hme] at hok; simp at hok
      | ok mes =>
        rw [hme] at hok
        simp only [Except.ok.injEq] at hok
        subst hok
        unfold GetExpressions
        rw [List.append_assoc]
        rw [flatten_events d.event_expression evs hev]
        rw [flatten_states d.state_expression sts hst]
        rw [← List.append_nil mes]
        rw [flatten_metrics d.metric_expression mes hme hrange]
        simp [getExpressionsAux]

/-- Sample configuration with one expression of each kind, for the C6
witness. -/
def alarmRoundtripSampleData : AlarmData :=
  ⟨"alarm-1", "", true, "or",
    [⟨"VmPoweredOffEvent", "vim.event.VmPoweredOffEvent", "VirtualMachine",
      [⟨"host", "equals", "host-1"⟩], "red"⟩],
    [⟨"isEqual", "VirtualMachine", "runtime.powerState", "poweredOn", "poweredOff"⟩],
    [⟨"isAbove", "VirtualMachine", 6, "", 70, 90, 300, 300⟩],
    [], [], []⟩

/-- Witness for the amended claim C6 at a concrete configuration. -/
theorem alarm_expressions_roundtrip_witness :
    GetExpressions
        [.event ⟨"VirtualMachine", "VmPoweredOffEvent", "red",
            "vim.event.VmPoweredOffEvent", [⟨"host", "equals", "host-1"⟩]⟩,
          .state ⟨"isEqual", "VirtualMachine", "runtime.powerState",
            "poweredOn", "poweredOff"⟩,
          .metric ⟨"isAbove", "VirtualMachine", ⟨6, ""⟩, 70, 300, 90, 300⟩] =
      (⟨[⟨"VmPoweredOffEvent", "vim.event.VmPoweredOffEvent", "VirtualMachine",
          [⟨"host", "equals", "host-1"⟩], "red"⟩],
        [⟨"isEqual", "VirtualMachine", "runtime.powerState", "poweredOn", "poweredOff"⟩],
        [⟨"isAbove", "VirtualMachine", 6, "", 70, 90, 300, 300⟩]⟩, none) :=
  alarm_expressions_roundtrip alarmRoundtripSampleData
    [.event ⟨"VirtualMachine", "VmPoweredOffEvent", "red",
        "vim.event.VmPoweredOffEvent", [⟨"host", "equals", "host-1"⟩]⟩,
      .state ⟨"isEqual", "VirtualMachine", "runtime.powerState",
        "poweredOn", "poweredOff"⟩,
      .metric ⟨"isAbove", "VirtualMachine", ⟨6, ""⟩, 70, 300, 90, 300⟩]
    (by decide) (by rfl)

/-! ## Claim C10 -/

/-- Configuration with a nonempty, fully valid expression list but an
email action whose `start_state` is not a recognized status. -/
def alarmBadActionData : AlarmData :=
  ⟨"alarm-4", "", true, "or", [],
    [⟨"isEqual", "VirtualMachine", "runtime.powerState", "poweredOn", "poweredOff"⟩],
    [], [⟨"subj", "a@b.c", "", "body", "purple", "red", false⟩], [], []⟩

/-- Claim C10, counterexample: the claim allows an error only for an
empty expression list or an unrecognized status/operator in an
*expression*; this configuration has one valid state expression and no
invalid expression, yet `GetAlarmSpec` fails because an email *action*
carries an unrecognized start state. -/
theorem getAlarmSpec_action_status_counterexample :
    GetAlarmSpec alarmBadActionData =
      .error "failed to compute actions: unknown status: purple" ∧
    GetBaseExpressions alarmBadActionData =
      .ok [.state ⟨"isEqual", "VirtualMachine", "runtime.powerState",
        "poweredOn", "poweredOff"⟩] :=
  ⟨rfl, rfl⟩

/-- Claim C10 (amended): `GetAlarmSpec` returns an error exactly when the
expressions fail to build (unrecognized expression status or operator),
the expression list is empty, or the actions fail to build (an action
with an unrecognized start or final state); in every other case it
returns a spec whose `ActionFrequency` is 0, whose `Setting` has
`ToleranceRange` 0 and `ReportingFrequency` 300, and whose `SystemName`
is empty. -/
theorem getAlarmSpec_characterization (d : AlarmData) :
    ((∃ s, GetAlarmSpec d = .ok s) ↔
      ∃ l, GetBaseExpressions d = .ok l ∧ l ≠ [] ∧
        ∃ a, GetBaseActions d = .ok a) ∧
    (∀ s, GetAlarmSpec d = .ok s →
      s.actionFrequency = 0 ∧ s.setting.toleranceRange = 0 ∧
        s.setting.reportingFrequency = 300 ∧ s.systemName = "") := by
  unfold GetAlarmSpec
  cases hexp : GetBaseExpressions d with
  | error e => simp
  | ok l =>
    by_cases hl : l.length = 0
    · have hnil : l = [] := List.length_eq_zero.mp hl
      subst hnil
      simp
    · have hne : l ≠ [] := by
        intro hcontra; subst hcontra; simp at hl
      cases hact : GetBaseActions d with
      | error e => simp [hl]
      | ok a =>
        constructor
        · constructor
          · intro _; exact ⟨l, rfl, hne, a, rfl⟩
          · intro _
            exact ⟨⟨d.name, d.description, d.enabled, "",
              if d.expression_operator = "or" then some (.orExpr l)
              else if d.expression_operator = "and" then some (.andExpr l) else none,
              a, 0, ⟨0, 300⟩⟩, by simp only [if_neg hl]⟩
        · intro s hs
          simp only [if_neg hl] at hs
          simp only [Except.ok.injEq] at hs
          subst hs
          exact ⟨rfl, rfl, rfl, rfl⟩

/-- Sample configuration for the C10 witness: one valid state expression,
no actions. -/
def alarmSpecSampleData : AlarmData :=
  ⟨"alarm-3", "d", true, "or", [],
    [⟨"isEqual", "VirtualMachine", "runtime.powerState", "poweredOn", "poweredOff"⟩],
    [], [], [], []⟩

/-- Witness for the amended claim C10 at a concrete configuration. -/
theorem getAlarmSpec_characterization_witness :
    (⟨"alarm-3", "d", true, "",
        some (.orExpr [.state ⟨"isEqual", "VirtualMachine", "runtime.powerState",
          "poweredOn", "poweredOff"⟩]),
        none, 0, ⟨0, 300⟩⟩ : AlarmSpec).actionFrequency = 0 ∧
      (⟨0, 300⟩ : AlarmSetting).toleranceRange = 0 ∧
      (⟨0, 300⟩ : AlarmSetting).reportingFrequency = 300 ∧
      (⟨"alarm-3", "d", true, "",
        some (.orExpr [.state ⟨"isEqual", "VirtualMachine", "runtime.powerState",
          "poweredOn", "poweredOff"⟩]),
        none, 0, ⟨0, 300⟩⟩ : AlarmSpec).systemName = "" :=
  (getAlarmSpec_characterization alarmSpecSampleData).2
    ⟨"alarm-3", "d", true, "",
      some (.orExpr [.state ⟨"isEqual", "VirtualMachine", "runtime.powerState",
        "poweredOn", "poweredOff"⟩]),
      none, 0, ⟨0, 300⟩⟩ (by rfl)

end VSphere
